import Mathlib

/-!
Shallow embedding of the payment-session reconciliation engine of the
repository (src/services/payment.go, src/models/payment.go, src/models/user.go).

The Mongo document store is modelled as in-memory lists of documents:
FindOne is List.find? (first document in insertion order), InsertOne is
appending, and a conditional UpdateOne is updateFirst, which updates the
first matching document and reports the matched count (0 or 1), mirroring
the filtered-update-and-report-match-count contract.  Go strings are
modelled as List Char (byte-for-byte for the ASCII payloads at issue);
time.Time values are abstract Nat ticks (seconds), and the crypto/rand
byte stream is an explicit function from positions to byte values.
-/

namespace Atmt

/-- Status values of models.PaymentStatus (src/models/payment.go). -/
inductive PaymentStatus where
  | pending
  | processed
  | completed
  | expired
  | failed
  | ignored
deriving DecidableEq, Repr

/-- The subset of models.User relevant to the payment engine
(src/models/user.go): identity, ownership flag, banned flag and the
currently pending payment code (bson omitempty string, hence Option). -/
structure User where
  id : Nat
  email : String
  owned : Bool
  isBanned : Bool
  paymentCode : Option (List Char)
  updatedAt : Nat
deriving DecidableEq, Repr

/-- models.PaymentSession (src/models/payment.go). -/
structure PaymentSession where
  id : Nat
  userID : Nat
  paymentCode : List Char
  amount : Int
  status : PaymentStatus
  qrImageURL : String
  createdAt : Nat
  expiresAt : Nat
  completedAt : Option Nat
deriving DecidableEq, Repr

/-- models.SepayWebhookRequest (src/models/payment.go), the inbound
webhook payload. -/
structure SepayWebhookRequest where
  sepayID : Int
  gateway : String
  transactionDate : String
  accountNumber : String
  code : Option String
  content : List Char
  transferType : String
  transferAmount : Int
  accumulated : Int
  subAccount : Option String
  referenceCode : String
  description : String
deriving DecidableEq, Repr

/-- models.Payment (src/models/payment.go), the Ledger record written for
every inbound webhook. -/
structure Payment where
  sepayID : Int
  gateway : String
  transactionDate : String
  accountNumber : String
  code : Option String
  content : List Char
  transferType : String
  transferAmount : Int
  accumulated : Int
  subAccount : Option String
  referenceCode : String
  description : String
  processedAt : Option Nat
  status : PaymentStatus
  userID : Option Nat
  productID : Option Nat
  createdAt : Nat
  updatedAt : Nat
deriving DecidableEq, Repr

/-- SepayWebhookRequest.ToPayment (src/models/payment.go lines 61-81). -/
def toPayment (w : SepayWebhookRequest) (now : Nat) : Payment :=
  { sepayID := w.sepayID
    gateway := w.gateway
    transactionDate := w.transactionDate
    accountNumber := w.accountNumber
    code := w.code
    content := w.content
    transferType := w.transferType
    transferAmount := w.transferAmount
    accumulated := w.accumulated
    subAccount := w.subAccount
    referenceCode := w.referenceCode
    description := w.description
    processedAt := some now
    status := PaymentStatus.pending
    userID := none
    productID := none
    createdAt := now
    updatedAt := now }

/-- The three Mongo collections held by services.PaymentService:
users, payment_sessions and payments. -/
structure DB where
  users : List User
  sessions : List PaymentSession
  payments : List Payment
deriving DecidableEq, Repr

/-- Mongo UpdateOne with a filter: update the first document matching the
predicate, returning the new collection and the matched count (0 or 1). -/
def updateFirst {α : Type} (p : α → Bool) (f : α → α) : List α → List α × Nat
  | [] => ([], 0)
  | x :: xs =>
    if p x then (f x :: xs, 1)
    else
      let r := updateFirst p f xs
      (x :: r.1, r.2)

/-- The literal marker "ATMT" searched for in the transfer content. -/
def markerChars : List Char := ['A', 'T', 'M', 'T']

/-- strings.Index content "ATMT": position of the first occurrence of the
marker, none if absent (src/services/payment.go line 145). -/
def indexOfMarker : List Char → Option Nat
  | [] => none
  | c :: rest =>
    if (c :: rest).take 4 = markerChars then some 0
    else (indexOfMarker rest).map (· + 1)

/-- Outcome of the marker search and code extraction in
ProcessWebhookPayment (src/services/payment.go lines 143-177). -/
inductive CodeParse where
  | noMarker
  | tooShort
  | found (code : List Char)
deriving DecidableEq, Repr

/-- The parsing stage of ProcessWebhookPayment: uppercase the content,
locate the first "ATMT", require at least 8 further characters, and take
the 8 characters immediately after the marker verbatim
(src/services/payment.go lines 143-177). -/
def parseCode (content : List Char) : CodeParse :=
  let up := content.map Char.toUpper
  match indexOfMarker up with
  | none => CodeParse.noMarker
  | some i =>
    if up.length < i + 12 then CodeParse.tooShort
    else CodeParse.found ((up.drop (i + 4)).take 8)

/-- The code a webhook content yields for lookup, if any. -/
def extractCode (content : List Char) : Option (List Char) :=
  match parseCode content with
  | CodeParse.found c => some c
  | _ => none

/-- Error classifications returned by ProcessWebhookPayment alongside the
Ledger record (the distinct fmt.Errorf branches). -/
inductive WebhookError where
  | incorrectAmount
  | codeNotFound
  | invalidCodeFormat
  | noUserForCode
  | userBanned
  | noPendingSession
deriving DecidableEq, Repr

/-- A non-success branch of ProcessWebhookPayment: set the resolution
status and processing time on the Ledger record, insert it into the
payments collection, and return it with the branch's error. -/
def recordResolution (db : DB) (p : Payment) (now : Nat) (st : PaymentStatus)
    (e : WebhookError) : DB × Payment × Option WebhookError :=
  ({ db with payments := db.payments ++ [{ p with status := st, processedAt := some now }] },
   { p with status := st, processedAt := some now }, some e)

/-- Filter of the users FindOne by payment_code
(src/services/payment.go line 181). -/
def userPred (c : List Char) (u : User) : Bool :=
  decide (u.paymentCode = some c)

/-- Filter of the users UpdateOne by _id. -/
def userIdPred (i : Nat) (u : User) : Bool :=
  decide (u.id = i)

/-- Filter of the conditional session update: payment_code equals the
extracted code and status is pending (src/services/payment.go 217-220). -/
def sessionPred (c : List Char) (s : PaymentSession) : Bool :=
  decide (s.paymentCode = c ∧ s.status = PaymentStatus.pending)

/-- The $set applied by the conditional session update: status completed,
completed_at now (src/services/payment.go lines 222-228). -/
def completeSession (now : Nat) (s : PaymentSession) : PaymentSession :=
  { s with status := PaymentStatus.completed, completedAt := some now }

/-- The $set/$unset applied to the user on a successful payment: owned
true, updated_at now, payment_code removed
(src/services/payment.go lines 250-258). -/
def grantOwnership (now : Nat) (u : User) : User :=
  { u with owned := true, updatedAt := now, paymentCode := none }

/-- The Ledger record of a successful resolution: status processed,
linked user, processing time (src/services/payment.go lines 267-270). -/
def processedPayment (p : Payment) (now : Nat) (uid : Nat) : Payment :=
  { p with status := PaymentStatus.processed, userID := some uid, processedAt := some now }

/-- The tail of ProcessWebhookPayment once a code has been extracted
(src/services/payment.go lines 179-280): reverse-lookup the user holding
the code, reject banned users, conditionally complete the first pending
session bearing the code, and on a match grant ownership and record a
processed Ledger entry. -/
def pwpWithCode (db : DB) (p : Payment) (code : List Char) (now : Nat) :
    DB × Payment × Option WebhookError :=
  match db.users.find? (userPred code) with
  | none => recordResolution db p now PaymentStatus.failed WebhookError.noUserForCode
  | some user =>
    if user.isBanned then
      recordResolution db p now PaymentStatus.failed WebhookError.userBanned
    else
      let r := updateFirst (sessionPred code) (completeSession now) db.sessions
      if r.2 = 0 then
        recordResolution { db with sessions := r.1 } p now PaymentStatus.failed
          WebhookError.noPendingSession
      else
        ({ users := (updateFirst (userIdPred user.id) (grantOwnership now) db.users).1
           sessions := r.1
           payments := db.payments ++ [processedPayment p now user.id] },
         processedPayment p now user.id, none)

/-- PaymentService.ProcessWebhookPayment (src/services/payment.go lines
121-280): convert the webhook to a Ledger record, require the exact
amount 5,000,000, parse the content for the marker and code, and hand the
extracted code to the lookup-and-transition tail. -/
def ProcessWebhookPayment (db : DB) (w : SepayWebhookRequest) (now : Nat) :
    DB × Payment × Option WebhookError :=
  if w.transferAmount ≠ 5000000 then
    recordResolution db (toPayment w now) now PaymentStatus.ignored WebhookError.incorrectAmount
  else
    match parseCode w.content with
    | CodeParse.noMarker =>
      recordResolution db (toPayment w now) now PaymentStatus.ignored WebhookError.codeNotFound
    | CodeParse.tooShort =>
      recordResolution db (toPayment w now) now PaymentStatus.ignored WebhookError.invalidCodeFormat
    | CodeParse.found code => pwpWithCode db (toPayment w now) code now

/-- The 36-symbol alphabet of generatePaymentCode
(src/services/payment.go line 35). -/
def charsetChars : List Char := "ABCDEFGHIJKLMNOPQRSTUVWXYZ0123456789".toList

/-- One symbol of a payment code: a random byte reduced modulo the
alphabet size (src/services/payment.go lines 38-40). -/
def charAt36 (n : Nat) : Char := charsetChars.getD (n % 36) 'A'

/-- PaymentService.generatePaymentCode (src/services/payment.go lines
34-42): 8 symbols taken from the random byte stream; attempt k consumes
bytes 8k..8k+7. -/
def generatePaymentCode (rnd : Nat → Nat) (k : Nat) : List Char :=
  (List.range 8).map (fun i => charAt36 (rnd (8 * k + i)))

/-- CountDocuments with filter payment_code = code, compared with zero
(src/services/payment.go lines 71-77). -/
def codeExists (code : List Char) (sessions : List PaymentSession) : Bool :=
  sessions.any (fun s => decide (s.paymentCode = code))

/-- The generate-and-check uniqueness loop of InitiatePayment
(src/services/payment.go lines 67-78).  The Go loop is unbounded; fuel
bounds the number of attempts in the model, and none models a run that
found no fresh code within fuel attempts. -/
def genUniqueCode (rnd : Nat → Nat) (sessions : List PaymentSession) :
    Nat → Nat → Option (List Char)
  | 0, _ => none
  | fuel + 1, k =>
    let code := generatePaymentCode rnd k
    if codeExists code sessions then genUniqueCode rnd sessions fuel (k + 1)
    else some code

/-- Error classifications of InitiatePayment's failure returns.
codeGenExhausted is a model artifact of bounding the Go generate-and-check
loop with fuel. -/
inductive InitError where
  | userNotFound
  | userBanned
  | alreadyOwned
  | codeGenExhausted
deriving DecidableEq, Repr

/-- The fixed expiry window of a payment session, in seconds
(src/services/payment.go line 82). -/
def fifteenMinutes : Nat := 15 * 60

/-- The QR image URL built for a session (src/services/payment.go lines
87-90); query-escaping is the identity on the alphanumeric codes. -/
def mkQRImageURL (code : List Char) : String :=
  "https://img.vietqr.io/image/mbbank-28368866886-compact.jpg?amount=5000000&addInfo=ATMT"
    ++ String.mk code ++ "&accountName=NGUYEN+HONG+QUANG"

/-- PaymentService.InitiatePayment (src/services/payment.go lines 45-118):
validate the user exists, is not banned and does not already own the
product; generate a code until no session of any status carries it;
insert a Pending session expiring 15 minutes after creation; mirror the
code onto the user's payment_code field. -/
def InitiatePayment (db : DB) (uid : Nat) (now : Nat) (rnd : Nat → Nat)
    (fuel : Nat) (sessionID : Nat) : DB × Except InitError PaymentSession :=
  match db.users.find? (userIdPred uid) with
  | none => (db, Except.error InitError.userNotFound)
  | some user =>
    if user.isBanned then (db, Except.error InitError.userBanned)
    else if user.owned then (db, Except.error InitError.alreadyOwned)
    else
      match genUniqueCode rnd db.sessions fuel 0 with
      | none => (db, Except.error InitError.codeGenExhausted)
      | some paymentCode =>
        let s : PaymentSession :=
          { id := sessionID
            userID := uid
            paymentCode := paymentCode
            amount := 5000000
            status := PaymentStatus.pending
            qrImageURL := mkQRImageURL paymentCode
            createdAt := now
            expiresAt := now + fifteenMinutes
            completedAt := none }
        ({ users := (updateFirst (userIdPred uid)
             (fun u => { u with paymentCode := some paymentCode, updatedAt := now }) db.users).1
           sessions := db.sessions ++ [s]
           payments := db.payments },
         Except.ok s)

/-- A sequence of webhook deliveries, threaded through the store. -/
def runWebhooks (db : DB) : List (SepayWebhookRequest × Nat) → DB
  | [] => db
  | (w, t) :: rest => runWebhooks (ProcessWebhookPayment db w t).1 rest

/-- How many calls in a delivery sequence carry code c and observe a
session match (i.e. resolve Processed). -/
def matchCount (c : List Char) (db : DB) : List (SepayWebhookRequest × Nat) → Nat
  | [] => 0
  | (w, t) :: rest =>
    (if extractCode w.content = some c ∧
        (ProcessWebhookPayment db w t).2.1.status = PaymentStatus.processed
     then 1 else 0)
    + matchCount c (ProcessWebhookPayment db w t).1 rest

/-- Number of Pending sessions carrying code c. -/
def pendingWith (c : List Char) (l : List PaymentSession) : Nat :=
  (l.filter (sessionPred c)).length

/-- Pairwise distinctness of the codes of stored sessions. -/
def codesNodup : List PaymentSession → Bool
  | [] => true
  | s :: rest => rest.all (fun t => decide (t.paymentCode ≠ s.paymentCode)) && codesNodup rest

/-- One session-initiation request: everything InitiatePayment consumes
besides the store. -/
structure InitRequest where
  userID : Nat
  now : Nat
  rnd : Nat → Nat
  fuel : Nat
  sessionID : Nat

/-- A sequence of session initiations, threaded through the store. -/
def runInitiations (db : DB) : List InitRequest → DB
  | [] => db
  | r :: rest =>
    runInitiations (InitiatePayment db r.userID r.now r.rnd r.fuel r.sessionID).1 rest

/-- Pairwise-distinct ids of stored users (the Mongo _id uniqueness
guarantee, stated as an executable check). -/
def idsNodup : List User → Bool
  | [] => true
  | u :: rest => rest.all (fun v => decide (v.id ≠ u.id)) && idsNodup rest

/-- A concrete inbound webhook, used by the concrete instances below. -/
def sampleWebhook (amt : Int) (content : String) : SepayWebhookRequest :=
  { sepayID := 1, gateway := "MBBank", transactionDate := "2025-01-01 10:00:00",
    accountNumber := "28368866886", code := none, content := content.toList,
    transferType := "in", transferAmount := amt, accumulated := 0,
    subAccount := none, referenceCode := "FT123", description := "bank sms" }

/-- The 8-character code of the concrete scenario. -/
def sampleCode : List Char := "AB12CD34".toList

/-- A Pending session carrying sampleCode, owned by user 1. -/
def sampleSession : PaymentSession :=
  { id := 10, userID := 1, paymentCode := sampleCode, amount := 5000000,
    status := PaymentStatus.pending, qrImageURL := mkQRImageURL sampleCode,
    createdAt := 0, expiresAt := 900, completedAt := none }

/-- User 1, holding sampleCode as pending code, in good standing. -/
def sampleUserLinked : User :=
  { id := 1, email := "u@example.com", owned := false, isBanned := false,
    paymentCode := some sampleCode, updatedAt := 0 }

/-- User 1, holding sampleCode as pending code, banned. -/
def sampleUserBanned : User :=
  { id := 1, email := "u@example.com", owned := false, isBanned := true,
    paymentCode := some sampleCode, updatedAt := 0 }

/-- A webhook with the exact price and sampleCode embedded after ATMT. -/
def wGood : SepayWebhookRequest := sampleWebhook 5000000 "ATMTAB12CD34 chuyen tien"

/-- Store with a Pending session but no user holding its code. -/
def dbNoUser : DB := { users := [], sessions := [sampleSession], payments := [] }

/-- Store with a Pending session whose code is held by a banned user. -/
def dbBanned : DB := { users := [sampleUserBanned], sessions := [sampleSession], payments := [] }

/-- Store with a Pending session whose code is held by a user in good
standing: the state InitiatePayment normally leaves behind. -/
def dbLinked : DB := { users := [sampleUserLinked], sessions := [sampleSession], payments := [] }

/-- The Pending session, with its expiry already in the past at time 7. -/
def staleSession : PaymentSession := { sampleSession with expiresAt := 3 }

/-- Store with the stale Pending session and its linked user. -/
def dbStale : DB := { users := [sampleUserLinked], sessions := [staleSession], payments := [] }

/-- Decomposition of a conditional first-match update: either nothing
matched and the collection is unchanged, or the collection splits around
the first matching document, which alone is updated. -/
theorem updateFirst_split {α : Type} (p : α → Bool) (f : α → α) (l : List α) :
    ((updateFirst p f l).2 = 0 ∧ (updateFirst p f l).1 = l ∧ ∀ x ∈ l, p x = false) ∨
    (∃ x l₁ l₂, l = l₁ ++ x :: l₂ ∧ p x = true ∧ (∀ y ∈ l₁, p y = false) ∧
      (updateFirst p f l).1 = l₁ ++ f x :: l₂ ∧ (updateFirst p f l).2 = 1) := by
  induction l with
  | nil => left; simp [updateFirst]
  | cons x xs ih =>
    by_cases hx : p x = true
    · right
      exact ⟨x, [], xs, by simp, hx, by simp, by simp [updateFirst, hx], by simp [updateFirst, hx]⟩
    · have hx' : p x = false := by simpa using hx
      rcases ih with ⟨h0, h1, h2⟩ | ⟨y, l₁, l₂, he, hp, hl, h1, h2⟩
      · left
        refine ⟨by simp [updateFirst, hx', h0], by simp [updateFirst, hx', h1], ?_⟩
        intro z hz
        rcases List.mem_cons.mp hz with rfl | hz
        · exact hx'
        · exact h2 z hz
      · right
        refine ⟨y, x :: l₁, l₂, by simp [he], hp, ?_, ?_, ?_⟩
        · intro z hz
          rcases List.mem_cons.mp hz with rfl | hz
          · exact hx'
          · exact hl z hz
        · simp [updateFirst, hx', h1]
        · simp [updateFirst, hx', h2]

theorem updateFirst_zero_eq {α : Type} {p : α → Bool} {f : α → α} {l : List α}
    (h : (updateFirst p f l).2 = 0) : (updateFirst p f l).1 = l := by
  rcases updateFirst_split p f l with ⟨_, h1, _⟩ | ⟨x, l₁, l₂, _, _, _, _, h2⟩
  · exact h1
  · omega

theorem updateFirst_mem_pos {α : Type} {p : α → Bool} {f : α → α} {l : List α}
    {x : α} (hx : x ∈ l) (hp : p x = true) : (updateFirst p f l).2 = 1 := by
  rcases updateFirst_split p f l with ⟨_, _, h2⟩ | ⟨y, l₁, l₂, _, _, _, _, h2⟩
  · rw [h2 x hx] at hp; cases hp
  · exact h2

/-- Pointwise relation between a collection and its first-match update. -/
theorem forall2_updateFirst {α : Type} {R : α → α → Prop} {p : α → Bool} {f : α → α}
    (hr : ∀ x, R x x) (hf : ∀ x, p x = true → R x (f x)) (l : List α) :
    List.Forall₂ R l (updateFirst p f l).1 := by
  induction l with
  | nil => simp [updateFirst]
  | cons x xs ih =>
    by_cases hx : p x = true
    · simp only [updateFirst, hx, if_true]
      exact List.Forall₂.cons (hf x hx) (List.forall₂_same.mpr (fun a _ => hr a))
    · have hx' : p x = false := by simpa using hx
      simp only [updateFirst, hx', Bool.false_eq_true, if_false]
      exact List.Forall₂.cons (hr x) ih

theorem filter_length_updateFirst_conserve {α : Type} {p q : α → Bool} {f : α → α}
    (h : ∀ x, p x = true → q x = false ∧ q (f x) = false) (l : List α) :
    ((updateFirst p f l).1.filter q).length = (l.filter q).length := by
  rcases updateFirst_split p f l with ⟨_, h1, _⟩ | ⟨x, l₁, l₂, he, hp, _, h1, _⟩
  · rw [h1]
  · rw [h1, he]
    simp [List.filter_append, (h x hp).1, (h x hp).2]

theorem filter_length_updateFirst_dec {α : Type} {p q : α → Bool} {f : α → α}
    (h : ∀ x, p x = true → q x = true ∧ q (f x) = false) (l : List α) :
    ((updateFirst p f l).1.filter q).length + (updateFirst p f l).2 = (l.filter q).length := by
  rcases updateFirst_split p f l with ⟨h0, h1, _⟩ | ⟨x, l₁, l₂, he, hp, _, h1, h2⟩
  · rw [h0, h1]
    omega
  · rw [h1, h2, he]
    simp [List.filter_append, (h x hp).1, (h x hp).2]
    omega

/-- In a list whose keys are pairwise distinct, an element with the key of
a member, sitting at a split point, is that member. -/
theorem eq_of_pairwise_key {α β : Type} {k : α → β} {l l₁ l₂ : List α} {x s : α}
    (hp : l.Pairwise (fun a b => k a ≠ k b)) (he : l = l₁ ++ x :: l₂)
    (hs : s ∈ l) (hk : k x = k s) : x = s := by
  subst he
  rcases List.mem_append.mp hs with hs1 | hs2
  · rcases List.pairwise_append.mp hp with ⟨_, _, hcross⟩
    exact absurd hk.symm (hcross s hs1 x (List.mem_cons_self x l₂))
  · rcases List.mem_cons.mp hs2 with rfl | hs3
    · rfl
    · rcases List.pairwise_append.mp hp with ⟨_, hx2, _⟩
      exact absurd hk ((List.pairwise_cons.mp hx2).1 s hs3)

theorem sessionPred_complete_false (c : List Char) (now : Nat) (s : PaymentSession) :
    sessionPred c (completeSession now s) = false := by
  simp [sessionPred, completeSession]

theorem sessionPred_spec {c : List Char} {s : PaymentSession}
    (h : sessionPred c s = true) : s.paymentCode = c ∧ s.status = PaymentStatus.pending := by
  simpa [sessionPred] using h

theorem pendingWith_updateFirst_same (c : List Char) (now : Nat) (l : List PaymentSession) :
    pendingWith c (updateFirst (sessionPred c) (completeSession now) l).1
      + (updateFirst (sessionPred c) (completeSession now) l).2 = pendingWith c l := by
  exact filter_length_updateFirst_dec
    (fun x hx => ⟨hx, sessionPred_complete_false c now x⟩) l

theorem pendingWith_updateFirst_other {c c' : List Char} (hne : c ≠ c') (now : Nat)
    (l : List PaymentSession) :
    pendingWith c (updateFirst (sessionPred c') (completeSession now) l).1 = pendingWith c l := by
  refine filter_length_updateFirst_conserve (fun x hx => ⟨?_, sessionPred_complete_false c now x⟩) l
  have := sessionPred_spec hx
  simp [sessionPred, this.1, this.2]
  intro h
  exact hne (h ▸ rfl)

theorem pendingWith_zero_matched {c : List Char} {l : List PaymentSession}
    (h : pendingWith c l = 0) (f : PaymentSession → PaymentSession) :
    (updateFirst (sessionPred c) f l).2 = 0 := by
  rcases updateFirst_split (sessionPred c) f l with ⟨h0, _, _⟩ | ⟨x, l₁, l₂, he, hp, _, _, _⟩
  · exact h0
  · exfalso
    have hx : x ∈ l.filter (sessionPred c) := List.mem_filter.mpr ⟨by simp [he], hp⟩
    have h' : (l.filter (sessionPred c)).length = 0 := h
    have : 0 < (l.filter (sessionPred c)).length := List.length_pos_of_mem hx
    omega

theorem pwp_eq_badAmount {w : SepayWebhookRequest} (h : ¬ w.transferAmount = 5000000)
    (db : DB) (now : Nat) :
    ProcessWebhookPayment db w now =
      recordResolution db (toPayment w now) now PaymentStatus.ignored
        WebhookError.incorrectAmount := by
  simp [ProcessWebhookPayment, h]

theorem pwp_eq_noMarker {w : SepayWebhookRequest} (h : w.transferAmount = 5000000)
    (hp : parseCode w.content = CodeParse.noMarker) (db : DB) (now : Nat) :
    ProcessWebhookPayment db w now =
      recordResolution db (toPayment w now) now PaymentStatus.ignored
        WebhookError.codeNotFound := by
  simp [ProcessWebhookPayment, h, hp]

theorem pwp_eq_tooShort {w : SepayWebhookRequest} (h : w.transferAmount = 5000000)
    (hp : parseCode w.content = CodeParse.tooShort) (db : DB) (now : Nat) :
    ProcessWebhookPayment db w now =
      recordResolution db (toPayment w now) now PaymentStatus.ignored
        WebhookError.invalidCodeFormat := by
  simp [ProcessWebhookPayment, h, hp]

theorem pwp_eq_found {w : SepayWebhookRequest} {c : List Char}
    (h : w.transferAmount = 5000000) (hp : parseCode w.content = CodeParse.found c)
    (db : DB) (now : Nat) :
    ProcessWebhookPayment db w now = pwpWithCode db (toPayment w now) c now := by
  simp [ProcessWebhookPayment, h, hp]

theorem pwc_eq_noUser {db : DB} {c : List Char}
    (h : db.users.find? (userPred c) = none) (p : Payment) (now : Nat) :
    pwpWithCode db p c now =
      recordResolution db p now PaymentStatus.failed WebhookError.noUserForCode := by
  simp [pwpWithCode, h]

theorem pwc_eq_banned {db : DB} {c : List Char} {u : User}
    (h : db.users.find? (userPred c) = some u) (hb : u.isBanned = true)
    (p : Payment) (now : Nat) :
    pwpWithCode db p c now =
      recordResolution db p now PaymentStatus.failed WebhookError.userBanned := by
  simp [pwpWithCode, h, hb]

theorem pwc_eq_noSession {db : DB} {c : List Char} {u : User} {now : Nat}
    (h : db.users.find? (userPred c) = some u) (hb : u.isBanned = false)
    (hm : (updateFirst (sessionPred c) (completeSession now) db.sessions).2 = 0)
    (p : Payment) :
    pwpWithCode db p c now =
      recordResolution
        { db with sessions := (updateFirst (sessionPred c) (completeSession now) db.sessions).1 }
        p now PaymentStatus.failed WebhookError.noPendingSession := by
  simp [pwpWithCode, h, hb, hm]

theorem pwc_eq_success {db : DB} {c : List Char} {u : User} {now : Nat}
    (h : db.users.find? (userPred c) = some u) (hb : u.isBanned = false)
    (hm : ¬ (updateFirst (sessionPred c) (completeSession now) db.sessions).2 = 0)
    (p : Payment) :
    pwpWithCode db p c now =
      ({ users := (updateFirst (userIdPred u.id) (grantOwnership now) db.users).1
         sessions := (updateFirst (sessionPred c) (completeSession now) db.sessions).1
         payments := db.payments ++ [processedPayment p now u.id] },
       processedPayment p now u.id, none) := by
  simp [pwpWithCode, h, hb, hm]

/-- Exhaustive case split of one webhook call, as seen by the session
collection and the resolution status. -/
theorem pwp_shape (db : DB) (w : SepayWebhookRequest) (t : Nat) :
    ((ProcessWebhookPayment db w t).1.sessions = db.sessions ∧
      (ProcessWebhookPayment db w t).2.1.status ≠ PaymentStatus.processed) ∨
    (∃ c, extractCode w.content = some c ∧
      (ProcessWebhookPayment db w t).1.sessions =
        (updateFirst (sessionPred c) (completeSession t) db.sessions).1 ∧
      (((updateFirst (sessionPred c) (completeSession t) db.sessions).2 = 0 ∧
         (ProcessWebhookPayment db w t).2.1.status = PaymentStatus.failed) ∨
       ((updateFirst (sessionPred c) (completeSession t) db.sessions).2 = 1 ∧
         (ProcessWebhookPayment db w t).2.1.status = PaymentStatus.processed))) := by
  by_cases h : w.transferAmount = 5000000
  · rcases hp : parseCode w.content with _ | _ | c
    · left
      rw [pwp_eq_noMarker h hp]
      simp [recordResolution]
    · left
      rw [pwp_eq_tooShort h hp]
      simp [recordResolution]
    · rcases hf : db.users.find? (userPred c) with _ | u
      · left
        rw [pwp_eq_found h hp, pwc_eq_noUser hf]
        simp [recordResolution]
      · by_cases hb : u.isBanned = true
        · left
          rw [pwp_eq_found h hp, pwc_eq_banned hf hb]
          simp [recordResolution]
        · have hb' : u.isBanned = false := by simpa using hb
          by_cases hm : (updateFirst (sessionPred c) (completeSession t) db.sessions).2 = 0
          · right
            refine ⟨c, by simp [extractCode, hp], ?_, Or.inl ⟨hm, ?_⟩⟩
            · rw [pwp_eq_found h hp, pwc_eq_noSession hf hb' hm]
              simp [recordResolution]
            · rw [pwp_eq_found h hp, pwc_eq_noSession hf hb' hm]
              simp [recordResolution]
          · right
            have hm1 : (updateFirst (sessionPred c) (completeSession t) db.sessions).2 = 1 := by
              rcases updateFirst_split (sessionPred c) (completeSession t) db.sessions with
                ⟨h0, _, _⟩ | ⟨_, _, _, _, _, _, _, h2⟩
              · exact absurd h0 hm
              · exact h2
            refine ⟨c, by simp [extractCode, hp], ?_, Or.inr ⟨hm1, ?_⟩⟩
            · rw [pwp_eq_found h hp, pwc_eq_success hf hb' hm]
            · rw [pwp_eq_found h hp, pwc_eq_success hf hb' hm]
              simp [processedPayment]
  · left
    rw [pwp_eq_badAmount h]
    simp [recordResolution]

theorem pwp_pending_mono (c : List Char) (db : DB) (w : SepayWebhookRequest) (t : Nat) :
    pendingWith c (ProcessWebhookPayment db w t).1.sessions ≤ pendingWith c db.sessions := by
  rcases pwp_shape db w t with ⟨h1, _⟩ | ⟨c', _, hsess, hcase⟩
  · rw [h1]
  · rw [hsess]
    by_cases hcc : c = c'
    · subst hcc
      have := pendingWith_updateFirst_same c t db.sessions
      omega
    · rw [pendingWith_updateFirst_other hcc]

theorem pwp_processed_pending {c : List Char} {db : DB} {w : SepayWebhookRequest} {t : Nat}
    (hx : extractCode w.content = some c)
    (hs : (ProcessWebhookPayment db w t).2.1.status = PaymentStatus.processed) :
    pendingWith c (ProcessWebhookPayment db w t).1.sessions + 1 = pendingWith c db.sessions := by
  rcases pwp_shape db w t with ⟨_, h2⟩ | ⟨c', hx', hsess, hcase⟩
  · exact absurd hs h2
  · rw [hx'] at hx
    have hcc : c' = c := by injection hx
    subst hcc
    rcases hcase with ⟨_, hst⟩ | ⟨hm, _⟩
    · rw [hst] at hs; cases hs
    · rw [hsess]
      have := pendingWith_updateFirst_same c' t db.sessions
      omega

theorem pwp_not_processed {c : List Char} {db : DB} {w : SepayWebhookRequest} {t : Nat}
    (hx : extractCode w.content = some c) (h0 : pendingWith c db.sessions = 0) :
    (ProcessWebhookPayment db w t).2.1.status ≠ PaymentStatus.processed := by
  intro hs
  have := pwp_processed_pending hx hs
  omega

theorem matchCount_zero {c : List Char} {db : DB}
    (h : pendingWith c db.sessions = 0) (ws : List (SepayWebhookRequest × Nat)) :
    matchCount c db ws = 0 := by
  induction ws generalizing db with
  | nil => rfl
  | cons wt rest ih =>
    rcases wt with ⟨w, t⟩
    have hafter : pendingWith c (ProcessWebhookPayment db w t).1.sessions = 0 := by
      have := pwp_pending_mono c db w t
      omega
    by_cases hc : extractCode w.content = some c ∧
        (ProcessWebhookPayment db w t).2.1.status = PaymentStatus.processed
    · exact absurd hc.2 (pwp_not_processed hc.1 h)
    · simp only [matchCount, if_neg hc]
      simpa using ih hafter

theorem matchCount_le_one {c : List Char} {db : DB}
    (h : pendingWith c db.sessions ≤ 1) (ws : List (SepayWebhookRequest × Nat)) :
    matchCount c db ws ≤ 1 := by
  induction ws generalizing db with
  | nil => simp [matchCount]
  | cons wt rest ih =>
    rcases wt with ⟨w, t⟩
    by_cases hc : extractCode w.content = some c ∧
        (ProcessWebhookPayment db w t).2.1.status = PaymentStatus.processed
    · have hafter : pendingWith c (ProcessWebhookPayment db w t).1.sessions = 0 := by
        have := pwp_processed_pending hc.1 hc.2
        omega
      simp only [matchCount, if_pos hc]
      have := matchCount_zero hafter rest
      omega
    · have hafter : pendingWith c (ProcessWebhookPayment db w t).1.sessions ≤ 1 := by
        have := pwp_pending_mono c db w t
        omega
      simp only [matchCount, if_neg hc]
      have := ih hafter
      omega

theorem codesNodup_pairwise {l : List PaymentSession} (h : codesNodup l = true) :
    l.Pairwise (fun a b => a.paymentCode ≠ b.paymentCode) := by
  induction l with
  | nil => exact List.Pairwise.nil
  | cons s rest ih =>
    rcases Bool.and_eq_true_iff.mp h with ⟨h1, h2⟩
    refine List.Pairwise.cons ?_ (ih h2)
    intro t ht
    have := List.all_eq_true.mp h1 t ht
    exact fun he => (of_decide_eq_true this) he.symm

theorem idsNodup_pairwise {l : List User} (h : idsNodup l = true) :
    l.Pairwise (fun a b => a.id ≠ b.id) := by
  induction l with
  | nil => exact List.Pairwise.nil
  | cons u rest ih =>
    rcases Bool.and_eq_true_iff.mp h with ⟨h1, h2⟩
    refine List.Pairwise.cons ?_ (ih h2)
    intro t ht
    have := List.all_eq_true.mp h1 t ht
    exact fun he => (of_decide_eq_true this) he.symm

theorem codesNodup_append {l : List PaymentSession} {s : PaymentSession}
    (h : codesNodup l = true) (hs : ∀ x ∈ l, ¬ x.paymentCode = s.paymentCode) :
    codesNodup (l ++ [s]) = true := by
  induction l with
  | nil => simp [codesNodup]
  | cons x xs ih =>
    rcases Bool.and_eq_true_iff.mp h with ⟨h1, h2⟩
    have hx := hs x (List.mem_cons_self x xs)
    refine Bool.and_eq_true_iff.mpr ⟨?_, ih h2 (fun y hy => hs y (List.mem_cons_of_mem x hy))⟩
    rw [List.all_eq_true]
    intro t ht
    rcases List.mem_append.mp ht with ht1 | ht2
    · exact List.all_eq_true.mp h1 t ht1
    · have : t = s := by simpa using ht2
      subst this
      exact decide_eq_true (fun he => hx he.symm)

theorem charAt36_mem (n : Nat) : charAt36 n ∈ charsetChars := by
  have h : n % 36 < 36 := Nat.mod_lt _ (by norm_num)
  have hall : ∀ m : Fin 36, charsetChars.getD (m : Nat) 'A' ∈ charsetChars := by decide
  simpa [charAt36] using hall ⟨n % 36, h⟩

theorem extractCode_found {content : List Char} {c : List Char}
    (h : extractCode content = some c) : parseCode content = CodeParse.found c := by
  rcases hp : parseCode content with _ | _ | c2
  · rw [extractCode, hp] at h; cases h
  · rw [extractCode, hp] at h; cases h
  · rw [extractCode, hp] at h
    simpa using h

/-- The first-match update leaves the updated image of some matching
document in the collection, provided a matching document exists. -/
theorem updateFirst_mem_updated {α : Type} {p : α → Bool} {f : α → α} {l : List α}
    {x : α} (hx : x ∈ l) (hp : p x = true) :
    ∃ z, z ∈ l ∧ p z = true ∧ f z ∈ (updateFirst p f l).1 := by
  rcases updateFirst_split p f l with ⟨_, _, h2⟩ | ⟨y, l₁, l₂, he, hpy, _, h1, _⟩
  · rw [h2 x hx] at hp; cases hp
  · refine ⟨y, by simp [he], hpy, ?_⟩
    rw [h1]
    exact List.mem_append.mpr (Or.inr (List.mem_cons_self _ _))

/-- The success path of one webhook call, under the well-formedness the
rest of the engine maintains: exact amount, the extracted code is the
session's code, the reverse lookup finds a non-banned user, the session
is Pending, and session codes are unique. -/
theorem pwp_success_spec {db : DB} {w : SepayWebhookRequest} {now : Nat}
    {s : PaymentSession} {u : User}
    (ha : w.transferAmount = 5000000)
    (hp : parseCode w.content = CodeParse.found s.paymentCode)
    (hf : db.users.find? (userPred s.paymentCode) = some u)
    (hb : u.isBanned = false)
    (hs : s ∈ db.sessions) (hpend : s.status = PaymentStatus.pending)
    (hnodup : codesNodup db.sessions = true) :
    ∃ l₁ l₂, db.sessions = l₁ ++ s :: l₂ ∧
      (ProcessWebhookPayment db w now).1.sessions = l₁ ++ completeSession now s :: l₂ ∧
      (ProcessWebhookPayment db w now).1.users
        = (updateFirst (userIdPred u.id) (grantOwnership now) db.users).1 ∧
      (ProcessWebhookPayment db w now).1.payments
        = db.payments ++ [(ProcessWebhookPayment db w now).2.1] ∧
      (ProcessWebhookPayment db w now).2.1
        = processedPayment (toPayment w now) now u.id ∧
      (ProcessWebhookPayment db w now).2.2 = none := by
  have hps : sessionPred s.paymentCode s = true := by
    simp [sessionPred, hpend]
  have hm1 : (updateFirst (sessionPred s.paymentCode) (completeSession now) db.sessions).2 = 1 :=
    updateFirst_mem_pos hs hps
  have hm : ¬ (updateFirst (sessionPred s.paymentCode) (completeSession now) db.sessions).2 = 0 := by
    omega
  rcases updateFirst_split (sessionPred s.paymentCode) (completeSession now) db.sessions with
    ⟨h0, _, _⟩ | ⟨x, l₁, l₂, he, hpx, _, h1, _⟩
  · omega
  · have hx : x = s := by
      refine eq_of_pairwise_key (k := PaymentSession.paymentCode)
        (codesNodup_pairwise hnodup) he hs ?_
      exact (sessionPred_spec hpx).1
    subst hx
    refine ⟨l₁, l₂, he, ?_, ?_, ?_, ?_, ?_⟩ <;>
      simp [pwp_eq_found ha hp, pwc_eq_success hf hb hm, h1]

/-- Claim C5: assuming no persistence failure, every call to
ProcessWebhookPayment appends exactly one Ledger record — the returned
one — whose resolution is terminal (Ignored, Failed or Processed, never
Pending), whose processing time is set, which links a user identity
exactly when the resolution is Processed, and which captures the full
inbound payload. -/
theorem C5_ledger_exactly_once (db : DB) (w : SepayWebhookRequest) (now : Nat) :
    (ProcessWebhookPayment db w now).1.payments
        = db.payments ++ [(ProcessWebhookPayment db w now).2.1] ∧
    ((ProcessWebhookPayment db w now).2.1.status = PaymentStatus.ignored ∨
     (ProcessWebhookPayment db w now).2.1.status = PaymentStatus.failed ∨
     (ProcessWebhookPayment db w now).2.1.status = PaymentStatus.processed) ∧
    (ProcessWebhookPayment db w now).2.1.processedAt = some now ∧
    ((ProcessWebhookPayment db w now).2.1.userID.isSome
       ↔ (ProcessWebhookPayment db w now).2.1.status = PaymentStatus.processed) ∧
    ((ProcessWebhookPayment db w now).2.1.sepayID = w.sepayID ∧
     (ProcessWebhookPayment db w now).2.1.gateway = w.gateway ∧
     (ProcessWebhookPayment db w now).2.1.transactionDate = w.transactionDate ∧
     (ProcessWebhookPayment db w now).2.1.accountNumber = w.accountNumber ∧
     (ProcessWebhookPayment db w now).2.1.code = w.code ∧
     (ProcessWebhookPayment db w now).2.1.content = w.content ∧
     (ProcessWebhookPayment db w now).2.1.transferType = w.transferType ∧
     (ProcessWebhookPayment db w now).2.1.transferAmount = w.transferAmount ∧
     (ProcessWebhookPayment db w now).2.1.accumulated = w.accumulated ∧
     (ProcessWebhookPayment db w now).2.1.subAccount = w.subAccount ∧
     (ProcessWebhookPayment db w now).2.1.referenceCode = w.referenceCode ∧
     (ProcessWebhookPayment db w now).2.1.description = w.description) := by
  by_cases ha : w.transferAmount = 5000000
  · rcases hp : parseCode w.content with _ | _ | c
    · rw [pwp_eq_noMarker ha hp]
      simp [recordResolution, toPayment]
    · rw [pwp_eq_tooShort ha hp]
      simp [recordResolution, toPayment]
    · rw [pwp_eq_found ha hp]
      rcases hf : db.users.find? (userPred c) with _ | u
      · rw [pwc_eq_noUser hf]
        simp [recordResolution, toPayment]
      · by_cases hb : u.isBanned = true
        · rw [pwc_eq_banned hf hb]
          simp [recordResolution, toPayment]
        · have hb2 : u.isBanned = false := by simpa using hb
          by_cases hm : (updateFirst (sessionPred c) (completeSession now) db.sessions).2 = 0
          · rw [pwc_eq_noSession hf hb2 hm]
            simp [recordResolution, toPayment]
          · rw [pwc_eq_success hf hb2 hm]
            simp [processedPayment, toPayment]
  · rw [pwp_eq_badAmount ha]
    simp [recordResolution, toPayment]

/-- Claim C10: the three validation errors of InitiatePayment are
returned before any write: whenever the result is the user-not-found,
user-banned or already-owned error, the store is unchanged. -/
theorem C10_initiate_error_atomicity (db : DB) (uid now : Nat) (rnd : Nat → Nat)
    (fuel sid : Nat)
    (h : (InitiatePayment db uid now rnd fuel sid).2 = Except.error InitError.userNotFound ∨
         (InitiatePayment db uid now rnd fuel sid).2 = Except.error InitError.userBanned ∨
         (InitiatePayment db uid now rnd fuel sid).2 = Except.error InitError.alreadyOwned) :
    (InitiatePayment db uid now rnd fuel sid).1 = db := by
  rcases hf : db.users.find? (userIdPred uid) with _ | u
  · simp [InitiatePayment, hf]
  · by_cases hb : u.isBanned = true
    · simp [InitiatePayment, hf, hb]
    · have hb2 : u.isBanned = false := by simpa using hb
      by_cases ho : u.owned = true
      · simp [InitiatePayment, hf, hb2, ho]
      · have ho2 : u.owned = false := by simpa using ho
        rcases hg : genUniqueCode rnd db.sessions fuel 0 with _ | code
        · simp [InitiatePayment, hf, hb2, ho2, hg]
        · exfalso
          rcases h with h | h | h <;>
            simp [InitiatePayment, hf, hb2, ho2, hg] at h

/-- Claim C10 witness at a concrete banned user. -/
theorem C10_initiate_error_atomicity_witness :
    (InitiatePayment dbBanned 1 0 (fun _ => 0) 1 99).1 = dbBanned :=
  C10_initiate_error_atomicity dbBanned 1 0 (fun _ => 0) 1 99 (Or.inr (Or.inl (by rfl)))

/-- Projections of the code-lookup tail that do not mention the stored
payload are independent of the payload's content field. -/
theorem pwc_content_proj (db : DB) (p : Payment) (cont : List Char) (c : List Char) (now : Nat) :
    (pwpWithCode db { p with content := cont } c now).1.users
        = (pwpWithCode db p c now).1.users ∧
    (pwpWithCode db { p with content := cont } c now).1.sessions
        = (pwpWithCode db p c now).1.sessions ∧
    (pwpWithCode db { p with content := cont } c now).2.1.status
        = (pwpWithCode db p c now).2.1.status ∧
    (pwpWithCode db { p with content := cont } c now).2.1.userID
        = (pwpWithCode db p c now).2.1.userID ∧
    (pwpWithCode db { p with content := cont } c now).2.2
        = (pwpWithCode db p c now).2.2 := by
  rcases hf : db.users.find? (userPred c) with _ | u
  · rw [pwc_eq_noUser hf (p := { p with content := cont }), pwc_eq_noUser hf (p := p)]
    simp [recordResolution]
  · by_cases hb : u.isBanned = true
    · rw [pwc_eq_banned hf hb (p := { p with content := cont }), pwc_eq_banned hf hb (p := p)]
      simp [recordResolution]
    · have hb2 : u.isBanned = false := by simpa using hb
      by_cases hm : (updateFirst (sessionPred c) (completeSession now) db.sessions).2 = 0
      · rw [pwc_eq_noSession hf hb2 hm (p := { p with content := cont }),
          pwc_eq_noSession hf hb2 hm (p := p)]
        simp [recordResolution]
      · rw [pwc_eq_success hf hb2 hm (p := { p with content := cont }),
          pwc_eq_success hf hb2 hm (p := p)]
        simp [processedPayment]

/-- Claim C9: the resolution status, linked user and all session/user
state effects of ProcessWebhookPayment are invariant under changing the
letter case of the webhook's content: the content is uppercased before
the marker search and the code extraction, so contents equal up to case
resolve identically (only the verbatim payload stored in the Ledger
record differs). -/
theorem C9_case_insensitive (db : DB) (w : SepayWebhookRequest) (now : Nat) (c2 : List Char)
    (h : c2.map Char.toUpper = w.content.map Char.toUpper) :
    (ProcessWebhookPayment db { w with content := c2 } now).1.users
        = (ProcessWebhookPayment db w now).1.users ∧
    (ProcessWebhookPayment db { w with content := c2 } now).1.sessions
        = (ProcessWebhookPayment db w now).1.sessions ∧
    (ProcessWebhookPayment db { w with content := c2 } now).2.1.status
        = (ProcessWebhookPayment db w now).2.1.status ∧
    (ProcessWebhookPayment db { w with content := c2 } now).2.1.userID
        = (ProcessWebhookPayment db w now).2.1.userID ∧
    (ProcessWebhookPayment db { w with content := c2 } now).2.2
        = (ProcessWebhookPayment db w now).2.2 := by
  have hparse : parseCode c2 = parseCode w.content := by
    simp [parseCode, h]
  by_cases ha : w.transferAmount = 5000000
  · have ha2 : ({ w with content := c2 } : SepayWebhookRequest).transferAmount = 5000000 := ha
    rcases hp : parseCode w.content with _ | _ | c
    · rw [pwp_eq_noMarker ha hp, pwp_eq_noMarker ha2 (hparse.trans hp)]
      simp [recordResolution, toPayment]
    · rw [pwp_eq_tooShort ha hp, pwp_eq_tooShort ha2 (hparse.trans hp)]
      simp [recordResolution, toPayment]
    · rw [pwp_eq_found ha hp, pwp_eq_found ha2 (hparse.trans hp)]
      exact pwc_content_proj db (toPayment w now) c2 c now
  · have ha2 : ¬ ({ w with content := c2 } : SepayWebhookRequest).transferAmount = 5000000 := ha
    rw [pwp_eq_badAmount ha, pwp_eq_badAmount ha2]
    simp [recordResolution, toPayment]

/-- Claim C9 witness: a lowercase rendering of the code resolves with the
same status as the uppercase one. -/
theorem C9_case_insensitive_witness :
    (ProcessWebhookPayment dbLinked { wGood with content := "atmtab12cd34 CHUYEN tien".toList } 7).2.1.status
        = (ProcessWebhookPayment dbLinked wGood 7).2.1.status :=
  (C9_case_insensitive dbLinked wGood 7 ("atmtab12cd34 CHUYEN tien".toList) (by decide)).2.2.1

/-- Claim C4: webhook classification short-circuits in order: a transfer
amount other than 5,000,000 is Ignored regardless of content with no
session or user state change; with the right amount, a content without
the marker (searched case-insensitively) is Ignored, as is one with fewer
than 8 characters after the marker's first occurrence; otherwise the code
used for lookup is exactly the 8 characters immediately following the
first marker occurrence in the uppercased content, taken verbatim. -/
theorem C4_classification (db : DB) (w : SepayWebhookRequest) (now : Nat) :
    (¬ w.transferAmount = 5000000 → ∀ c2 : List Char,
       ((ProcessWebhookPayment db { w with content := c2 } now).2.1.status = PaymentStatus.ignored ∧
        (ProcessWebhookPayment db { w with content := c2 } now).2.2
            = some WebhookError.incorrectAmount ∧
        (ProcessWebhookPayment db { w with content := c2 } now).1.users = db.users ∧
        (ProcessWebhookPayment db { w with content := c2 } now).1.sessions = db.sessions)) ∧
    (w.transferAmount = 5000000 → indexOfMarker (w.content.map Char.toUpper) = none →
       ((ProcessWebhookPayment db w now).2.1.status = PaymentStatus.ignored ∧
        (ProcessWebhookPayment db w now).1.users = db.users ∧
        (ProcessWebhookPayment db w now).1.sessions = db.sessions)) ∧
    (∀ i : Nat, w.transferAmount = 5000000 →
       indexOfMarker (w.content.map Char.toUpper) = some i →
       (w.content.map Char.toUpper).length < i + 12 →
       ((ProcessWebhookPayment db w now).2.1.status = PaymentStatus.ignored ∧
        (ProcessWebhookPayment db w now).1.users = db.users ∧
        (ProcessWebhookPayment db w now).1.sessions = db.sessions)) ∧
    (∀ i : Nat, w.transferAmount = 5000000 →
       indexOfMarker (w.content.map Char.toUpper) = some i →
       ¬ (w.content.map Char.toUpper).length < i + 12 →
       (extractCode w.content
            = some (((w.content.map Char.toUpper).drop (i + 4)).take 8) ∧
        (((w.content.map Char.toUpper).drop (i + 4)).take 8).length = 8 ∧
        ProcessWebhookPayment db w now
            = pwpWithCode db (toPayment w now)
                (((w.content.map Char.toUpper).drop (i + 4)).take 8) now)) := by
  refine ⟨?_, ?_, ?_, ?_⟩
  · intro ha c2
    rw [pwp_eq_badAmount (w := { w with content := c2 }) ha]
    simp [recordResolution]
  · intro ha hm
    have hp : parseCode w.content = CodeParse.noMarker := by
      simp [parseCode, hm]
    rw [pwp_eq_noMarker ha hp]
    simp [recordResolution]
  · intro i ha hm hlen
    rw [List.length_map] at hlen
    have hp : parseCode w.content = CodeParse.tooShort := by
      simp [parseCode, hm, hlen]
    rw [pwp_eq_tooShort ha hp]
    simp [recordResolution]
  · intro i ha hm hlen
    rw [List.length_map] at hlen
    have hp : parseCode w.content
        = CodeParse.found (((w.content.map Char.toUpper).drop (i + 4)).take 8) := by
      simp [parseCode, hm, hlen]
    refine ⟨by simp [extractCode, hp], ?_, pwp_eq_found ha hp db now⟩
    simp only [List.length_take, List.length_drop, List.length_map]
    omega

/-- Claim C4 witness: concrete webhooks exercising each classification
branch. -/
theorem C4_classification_witness :
    (ProcessWebhookPayment dbLinked (sampleWebhook 3000000 "ATMTAB12CD34") 5).2.1.status
        = PaymentStatus.ignored ∧
    (ProcessWebhookPayment dbLinked (sampleWebhook 5000000 "khong co ma") 5).2.1.status
        = PaymentStatus.ignored ∧
    (ProcessWebhookPayment dbLinked (sampleWebhook 5000000 "ATMTAB12") 5).2.1.status
        = PaymentStatus.ignored ∧
    extractCode ("xATMTAB12CD34".toList) = some sampleCode := by
  refine ⟨?_, ?_, ?_, ?_⟩
  · exact ((C4_classification dbLinked (sampleWebhook 3000000 "junk") 5).1 (by decide)
      ("ATMTAB12CD34".toList)).1
  · exact ((C4_classification dbLinked (sampleWebhook 5000000 "khong co ma") 5).2.1
      (by decide) (by decide)).1
  · exact ((C4_classification dbLinked (sampleWebhook 5000000 "ATMTAB12") 5).2.2.1 0
      (by decide) (by decide) (by decide)).1
  · exact ((C4_classification dbLinked (sampleWebhook 5000000 "xATMTAB12CD34") 5).2.2.2 1
      (by decide) (by decide) (by decide)).1

/-- Claim C1 counterexample: a Pending session whose code appears after
ATMT in a webhook of the exact amount, but no user holds the code as
pending code (the state a second InitiatePayment for the same user
leaves behind) — processing resolves Failed and the session stays
Pending, against the claim's promised Completed/owned/Processed outcome. -/
theorem C1_counterexample :
    sampleSession.status = PaymentStatus.pending ∧
    wGood.transferAmount = 5000000 ∧
    (∃ pre suf : List Char,
      wGood.content = pre ++ (markerChars ++ sampleSession.paymentCode) ++ suf) ∧
    (ProcessWebhookPayment dbNoUser wGood 7).2.1.status = PaymentStatus.failed ∧
    (ProcessWebhookPayment dbNoUser wGood 7).1.sessions = [sampleSession] ∧
    ¬ (∃ s ∈ (ProcessWebhookPayment dbNoUser wGood 7).1.sessions,
        s.status = PaymentStatus.completed) := by
  refine ⟨by decide, by decide, ⟨[], " chuyen tien".toList, by decide⟩, by decide, by decide,
    by decide⟩

/-- Claim C1 amended: for a Pending session and a webhook of the exact
amount whose parsed code is that session's code, provided some non-banned
user — the session's user — still holds the code as pending code, and
session codes are unique: the session becomes Completed with its
completion time set, the user gets owned=true with the code cleared, and
exactly one Processed Ledger record linking that user is appended. -/
theorem C1_amended_grant (db : DB) (w : SepayWebhookRequest) (now : Nat)
    (s : PaymentSession) (u : User)
    (ha : w.transferAmount = 5000000)
    (hp : parseCode w.content = CodeParse.found s.paymentCode)
    (hf : db.users.find? (userPred s.paymentCode) = some u)
    (hb : u.isBanned = false)
    (huid : u.id = s.userID)
    (hs : s ∈ db.sessions) (hpend : s.status = PaymentStatus.pending)
    (hnodup : codesNodup db.sessions = true)
    (hids : idsNodup db.users = true) :
    (∃ l1 l2, db.sessions = l1 ++ s :: l2 ∧
       (ProcessWebhookPayment db w now).1.sessions = l1 ++ completeSession now s :: l2) ∧
    (∃ m1 m2, db.users = m1 ++ u :: m2 ∧
       (ProcessWebhookPayment db w now).1.users = m1 ++ grantOwnership now u :: m2) ∧
    (ProcessWebhookPayment db w now).1.payments
        = db.payments ++ [(ProcessWebhookPayment db w now).2.1] ∧
    (ProcessWebhookPayment db w now).2.1.status = PaymentStatus.processed ∧
    (ProcessWebhookPayment db w now).2.1.userID = some s.userID ∧
    (ProcessWebhookPayment db w now).2.1.processedAt = some now ∧
    (ProcessWebhookPayment db w now).2.2 = none := by
  rcases pwp_success_spec ha hp hf hb hs hpend hnodup with
    ⟨l1, l2, hsess, hsess2, husers, hpay, hrec, herr⟩
  have hu : u ∈ db.users := List.mem_of_find?_eq_some hf
  have hup : userIdPred u.id u = true := by simp [userIdPred]
  refine ⟨⟨l1, l2, hsess, hsess2⟩, ?_, hpay, ?_, ?_, ?_, herr⟩
  · rcases updateFirst_split (userIdPred u.id) (grantOwnership now) db.users with
      ⟨_, _, h2⟩ | ⟨x, m1, m2, he, hpx, _, h1, _⟩
    · rw [h2 u hu] at hup; cases hup
    · have hx : x = u := by
        refine eq_of_pairwise_key (k := User.id) (idsNodup_pairwise hids) he hu ?_
        simpa [userIdPred] using hpx
      subst hx
      exact ⟨m1, m2, he, by rw [husers, h1]⟩
  · rw [hrec]; simp [processedPayment]
  · rw [hrec]; simp [processedPayment, huid]
  · rw [hrec]; simp [processedPayment]

/-- Claim C1 amended witness at the concrete linked store. -/
theorem C1_amended_grant_witness :
    (ProcessWebhookPayment dbLinked wGood 7).2.1.status = PaymentStatus.processed ∧
    (ProcessWebhookPayment dbLinked wGood 7).2.2 = none :=
  ⟨(C1_amended_grant dbLinked wGood 7 sampleSession sampleUserLinked (by decide) (by decide)
      (by decide) (by decide) (by decide) (by decide) (by decide) (by decide)
      (by decide)).2.2.2.1,
   (C1_amended_grant dbLinked wGood 7 sampleSession sampleUserLinked (by decide) (by decide)
      (by decide) (by decide) (by decide) (by decide) (by decide) (by decide)
      (by decide)).2.2.2.2.2.2⟩

/-- Claim C2 counterexample: with a banned user holding the code of a
Pending session, the webhook resolves Failed as claimed, but the session
has not been flipped to Completed — the banned-user check short-circuits
before the conditional session update, so no session in the store is
Completed. -/
theorem C2_counterexample :
    sampleUserBanned.isBanned = true ∧
    sampleSession.status = PaymentStatus.pending ∧
    (ProcessWebhookPayment dbBanned wGood 7).2.1.status = PaymentStatus.failed ∧
    (ProcessWebhookPayment dbBanned wGood 7).1.sessions = [sampleSession] ∧
    ¬ (∃ s ∈ (ProcessWebhookPayment dbBanned wGood 7).1.sessions,
        s.status = PaymentStatus.completed) := by
  decide

/-- Claim C2 amended: for every webhook passing the amount and parsing
checks whose extracted code's holder is banned, processing short-circuits
at the banned-user check before the session update: the resolution is
Failed with the user-banned classification, the sessions and users are
unchanged (a Pending session stays Pending, no entitlement grant), and
one Failed Ledger record is appended. -/
theorem C2_amended_banned (db : DB) (w : SepayWebhookRequest) (now : Nat)
    (u : User) (c : List Char)
    (ha : w.transferAmount = 5000000)
    (hp : parseCode w.content = CodeParse.found c)
    (hf : db.users.find? (userPred c) = some u)
    (hb : u.isBanned = true) :
    (ProcessWebhookPayment db w now).2.1.status = PaymentStatus.failed ∧
    (ProcessWebhookPayment db w now).2.2 = some WebhookError.userBanned ∧
    (ProcessWebhookPayment db w now).1.sessions = db.sessions ∧
    (ProcessWebhookPayment db w now).1.users = db.users ∧
    (ProcessWebhookPayment db w now).1.payments
        = db.payments ++ [(ProcessWebhookPayment db w now).2.1] := by
  rw [pwp_eq_found ha hp, pwc_eq_banned hf hb]
  simp [recordResolution]

/-- Claim C2 amended witness at the concrete banned store. -/
theorem C2_amended_banned_witness :
    (ProcessWebhookPayment dbBanned wGood 7).2.2 = some WebhookError.userBanned :=
  (C2_amended_banned dbBanned wGood 7 sampleUserBanned sampleCode (by decide) (by decide)
    (by decide) (by decide)).2.1

/-- Claim C3: entitlement grant is idempotent under duplicate delivery:
with at most one Pending session carrying a code — the invariant session
creation maintains — at most one call in any sequence of
ProcessWebhookPayment calls carrying that code observes a session match
(resolves Processed); and re-processing an identical webhook payload
after a first Processed resolution yields a Failed Ledger record, leaves
the users (hence owned=true) and sessions unchanged, and performs no
second grant or session transition. -/
theorem C3_idempotent_delivery :
    (∀ (c : List Char) (db : DB) (ws : List (SepayWebhookRequest × Nat)),
      pendingWith c db.sessions ≤ 1 → matchCount c db ws ≤ 1) ∧
    (∀ (c : List Char) (db : DB) (w : SepayWebhookRequest) (t t2 : Nat),
      pendingWith c db.sessions ≤ 1 →
      extractCode w.content = some c →
      (ProcessWebhookPayment db w t).2.1.status = PaymentStatus.processed →
      ((ProcessWebhookPayment (ProcessWebhookPayment db w t).1 w t2).2.1.status
          = PaymentStatus.failed ∧
       (ProcessWebhookPayment (ProcessWebhookPayment db w t).1 w t2).1.users
          = (ProcessWebhookPayment db w t).1.users ∧
       (ProcessWebhookPayment (ProcessWebhookPayment db w t).1 w t2).1.sessions
          = (ProcessWebhookPayment db w t).1.sessions ∧
       (ProcessWebhookPayment (ProcessWebhookPayment db w t).1 w t2).1.payments
          = (ProcessWebhookPayment db w t).1.payments
            ++ [(ProcessWebhookPayment (ProcessWebhookPayment db w t).1 w t2).2.1])) := by
  constructor
  · intro c db ws h
    exact matchCount_le_one h ws
  · intro c db w t t2 hpend hx hproc
    have ha : w.transferAmount = 5000000 := by
      by_contra ha
      rw [pwp_eq_badAmount ha] at hproc
      simp [recordResolution] at hproc
    have hp : parseCode w.content = CodeParse.found c := extractCode_found hx
    have hafter : pendingWith c (ProcessWebhookPayment db w t).1.sessions = 0 := by
      have := pwp_processed_pending hx hproc
      omega
    rw [pwp_eq_found ha hp]
    rcases hf : (ProcessWebhookPayment db w t).1.users.find? (userPred c) with _ | v
    · rw [pwc_eq_noUser hf]
      simp [recordResolution]
    · by_cases hvb : v.isBanned = true
      · rw [pwc_eq_banned hf hvb]
        simp [recordResolution]
      · have hvb2 : v.isBanned = false := by simpa using hvb
        have hm : (updateFirst (sessionPred c) (completeSession t2)
            (ProcessWebhookPayment db w t).1.sessions).2 = 0 :=
          pendingWith_zero_matched hafter (completeSession t2)
        rw [pwc_eq_noSession hf hvb2 hm]
        simp [recordResolution, updateFirst_zero_eq hm]

/-- Claim C3 witness: a duplicate delivery of the concrete successful
webhook matches at most once and fails the second time. -/
theorem C3_idempotent_delivery_witness :
    matchCount sampleCode dbLinked [(wGood, 1), (wGood, 2)] ≤ 1 ∧
    (ProcessWebhookPayment (ProcessWebhookPayment dbLinked wGood 1).1 wGood 2).2.1.status
        = PaymentStatus.failed :=
  ⟨C3_idempotent_delivery.1 sampleCode dbLinked [(wGood, 1), (wGood, 2)] (by decide),
   (C3_idempotent_delivery.2 sampleCode dbLinked wGood 1 2 (by decide) (by decide)
      (by decide)).1⟩

/-- Claim C7: no operation assigns the Expired status: every webhook call
relates old and new sessions pointwise by either leaving a session
unchanged or moving a Pending one to Completed with its completion time
set; session initiation only ever adds Pending sessions; and because the
conditional update filters only on code and Pending status, never
comparing expiry, a Pending session whose expiry has already passed is
still Completed by a matching webhook. -/
theorem C7_no_expired_transition :
    (∀ (db : DB) (w : SepayWebhookRequest) (t : Nat),
      List.Forall₂ (fun s s2 => s2 = s ∨
          (s.status = PaymentStatus.pending ∧ s2 = completeSession t s))
        db.sessions (ProcessWebhookPayment db w t).1.sessions) ∧
    (∀ (db : DB) (uid now : Nat) (rnd : Nat → Nat) (fuel sid : Nat),
      ∀ s ∈ (InitiatePayment db uid now rnd fuel sid).1.sessions,
        s ∈ db.sessions ∨ s.status = PaymentStatus.pending) ∧
    (∀ (db : DB) (w : SepayWebhookRequest) (now : Nat) (s : PaymentSession) (u : User),
      w.transferAmount = 5000000 →
      parseCode w.content = CodeParse.found s.paymentCode →
      db.users.find? (userPred s.paymentCode) = some u →
      u.isBanned = false →
      s ∈ db.sessions → s.status = PaymentStatus.pending →
      codesNodup db.sessions = true →
      s.expiresAt < now →
      completeSession now s ∈ (ProcessWebhookPayment db w now).1.sessions) := by
  refine ⟨?_, ?_, ?_⟩
  · intro db w t
    rcases pwp_shape db w t with ⟨h1, _⟩ | ⟨c, _, hsess, _⟩
    · rw [h1]
      exact List.forall₂_same.mpr (fun a _ => Or.inl rfl)
    · rw [hsess]
      exact forall2_updateFirst (R := fun s s2 => s2 = s ∨
          (s.status = PaymentStatus.pending ∧ s2 = completeSession t s))
        (p := sessionPred c) (f := completeSession t)
        (fun x => Or.inl rfl)
        (fun x hx => Or.inr ⟨(sessionPred_spec hx).2, rfl⟩) db.sessions
  · intro db uid now rnd fuel sid s hsmem
    rcases hf : db.users.find? (userIdPred uid) with _ | u
    · rw [InitiatePayment, hf] at hsmem
      exact Or.inl hsmem
    · by_cases hb : u.isBanned = true
      · rw [InitiatePayment, hf] at hsmem
        simp only [hb, if_true] at hsmem
        exact Or.inl hsmem
      · have hb2 : u.isBanned = false := by simpa using hb
        by_cases ho : u.owned = true
        · rw [InitiatePayment, hf] at hsmem
          simp only [hb2, ho, Bool.false_eq_true, if_false, if_true] at hsmem
          exact Or.inl hsmem
        · have ho2 : u.owned = false := by simpa using ho
          rcases hg : genUniqueCode rnd db.sessions fuel 0 with _ | code
          · rw [InitiatePayment, hf] at hsmem
            simp only [hb2, ho2, hg, Bool.false_eq_true, if_false] at hsmem
            exact Or.inl hsmem
          · rw [InitiatePayment, hf] at hsmem
            simp only [hb2, ho2, hg, Bool.false_eq_true, if_false] at hsmem
            rcases List.mem_append.mp hsmem with h1 | h2
            · exact Or.inl h1
            · right
              have : s = _ := List.mem_singleton.mp h2
              rw [this]
  · intro db w now s u ha hp hf hb hs hpend hnodup _
    rcases pwp_success_spec ha hp hf hb hs hpend hnodup with
      ⟨l1, l2, _, hsess2, _, _, _, _⟩
    rw [hsess2]
    exact List.mem_append.mpr (Or.inr (List.mem_cons_self _ _))

/-- Claim C7 witness: a Pending session whose expiry has passed is still
completed by a matching webhook. -/
theorem C7_no_expired_transition_witness :
    staleSession.expiresAt < 7 ∧
    completeSession 7 staleSession ∈ (ProcessWebhookPayment dbStale wGood 7).1.sessions :=
  ⟨by decide,
   C7_no_expired_transition.2.2 dbStale wGood 7 staleSession sampleUserLinked (by decide)
     (by decide) (by decide) (by decide) (by decide) (by decide) (by decide) (by decide)⟩

theorem genUniqueCode_fresh {rnd : Nat → Nat} {sessions : List PaymentSession}
    {fuel k : Nat} {code : List Char}
    (h : genUniqueCode rnd sessions fuel k = some code) :
    codeExists code sessions = false ∧ ∃ j, code = generatePaymentCode rnd j := by
  induction fuel generalizing k with
  | zero => simp [genUniqueCode] at h
  | succ n ih =>
    rw [genUniqueCode] at h
    by_cases hc : codeExists (generatePaymentCode rnd k) sessions = true
    · simp only [hc, if_true] at h
      exact ih h
    · have hc2 : codeExists (generatePaymentCode rnd k) sessions = false := by simpa using hc
      simp only [hc2, Bool.false_eq_true, if_false, Option.some.injEq] at h
      subst h
      exact ⟨hc2, k, rfl⟩

theorem codeExists_false_spec {code : List Char} {l : List PaymentSession}
    (h : codeExists code l = false) : ∀ x ∈ l, ¬ x.paymentCode = code := by
  intro x hx he
  have : codeExists code l = true := by
    simp only [codeExists, List.any_eq_true]
    exact ⟨x, hx, decide_eq_true he⟩
  rw [h] at this
  cases this

theorem initiate_codesNodup {db : DB} {uid now : Nat} {rnd : Nat → Nat} {fuel sid : Nat}
    (h : codesNodup db.sessions = true) :
    codesNodup (InitiatePayment db uid now rnd fuel sid).1.sessions = true := by
  rcases hf : db.users.find? (userIdPred uid) with _ | u
  · simpa [InitiatePayment, hf] using h
  · by_cases hb : u.isBanned = true
    · simpa [InitiatePayment, hf, hb] using h
    · have hb2 : u.isBanned = false := by simpa using hb
      by_cases ho : u.owned = true
      · simpa [InitiatePayment, hf, hb2, ho] using h
      · have ho2 : u.owned = false := by simpa using ho
        rcases hg : genUniqueCode rnd db.sessions fuel 0 with _ | code
        · simpa [InitiatePayment, hf, hb2, ho2, hg] using h
        · have hfresh := (genUniqueCode_fresh hg).1
          have hne := codeExists_false_spec hfresh
          rw [InitiatePayment, hf]
          simp only [hb2, ho2, hg, Bool.false_eq_true, if_false]
          exact codesNodup_append h hne

/-- Claim C6: every generated payment code is exactly 8 characters drawn
from the 36-symbol alphabet A-Z, 0-9; the generate-and-check loop only
returns codes carried by no existing session of any status; and a
sequence of session initiations keeps all stored codes pairwise
distinct. -/
theorem C6_code_uniqueness :
    (∀ (rnd : Nat → Nat) (k : Nat),
      (generatePaymentCode rnd k).length = 8 ∧
      ∀ ch ∈ generatePaymentCode rnd k, ch ∈ charsetChars) ∧
    (∀ (rnd : Nat → Nat) (sessions : List PaymentSession) (fuel k : Nat) (code : List Char),
      genUniqueCode rnd sessions fuel k = some code →
      codeExists code sessions = false ∧ ∃ j, code = generatePaymentCode rnd j) ∧
    (∀ (db : DB) (reqs : List InitRequest),
      codesNodup db.sessions = true →
      codesNodup (runInitiations db reqs).sessions = true) := by
  refine ⟨?_, ?_, ?_⟩
  · intro rnd k
    constructor
    · simp [generatePaymentCode]
    · intro ch hch
      rcases List.mem_map.mp hch with ⟨i, _, rfl⟩
      exact charAt36_mem _
  · intro rnd sessions fuel k code h
    exact genUniqueCode_fresh h
  · intro db reqs
    induction reqs generalizing db with
    | nil => exact fun h => h
    | cons r rest ih =>
      intro h
      exact ih _ (initiate_codesNodup h)

/-- Claim C6 witness: a concrete generation and one concrete initiation
on a store that already holds a session. -/
theorem C6_code_uniqueness_witness :
    (generatePaymentCode (fun _ => 3) 0).length = 8 ∧
    'D' ∈ charsetChars ∧
    codeExists ("DDDDDDDD".toList) [sampleSession] = false ∧
    codesNodup (runInitiations dbLinked [⟨1, 0, fun _ => 3, 1, 99⟩]).sessions = true :=
  ⟨(C6_code_uniqueness.1 (fun _ => 3) 0).1,
   (C6_code_uniqueness.1 (fun _ => 3) 0).2 'D' (by decide),
   (C6_code_uniqueness.2.1 (fun _ => 3) [sampleSession] 1 0 ("DDDDDDDD".toList) (by rfl)).1,
   C6_code_uniqueness.2.2 dbLinked [⟨1, 0, fun _ => 3, 1, 99⟩] (by decide)⟩

/-- Claim C8: session initiation fails with a distinct error exactly when
the user is missing, banned, or already owns the product; otherwise —
granted the generate-and-check loop finds a code — it persists a Pending
session of amount 5,000,000 expiring fifteen minutes after creation and
mirrors the session's code onto the user's pending-code field. -/
theorem C8_initiate_contract (db : DB) (uid now : Nat) (rnd : Nat → Nat) (fuel sid : Nat)
    (hgen : ∃ code, genUniqueCode rnd db.sessions fuel 0 = some code) :
    ((InitiatePayment db uid now rnd fuel sid).2 = Except.error InitError.userNotFound ↔
      db.users.find? (userIdPred uid) = none) ∧
    (∀ u, db.users.find? (userIdPred uid) = some u →
      (((InitiatePayment db uid now rnd fuel sid).2 = Except.error InitError.userBanned ↔
          u.isBanned = true) ∧
       ((InitiatePayment db uid now rnd fuel sid).2 = Except.error InitError.alreadyOwned ↔
          (u.isBanned = false ∧ u.owned = true)))) ∧
    (∀ u, db.users.find? (userIdPred uid) = some u →
      u.isBanned = false → u.owned = false →
      ∃ s, (InitiatePayment db uid now rnd fuel sid).2 = Except.ok s ∧
        (InitiatePayment db uid now rnd fuel sid).1.sessions = db.sessions ++ [s] ∧
        s.userID = uid ∧ s.status = PaymentStatus.pending ∧ s.amount = 5000000 ∧
        s.createdAt = now ∧ s.expiresAt = now + fifteenMinutes ∧
        ∃ u2 ∈ (InitiatePayment db uid now rnd fuel sid).1.users,
          u2.id = uid ∧ u2.paymentCode = some s.paymentCode) := by
  rcases hgen with ⟨code, hg⟩
  rcases hf : db.users.find? (userIdPred uid) with _ | u
  · refine ⟨by simp [InitiatePayment, hf], ?_, ?_⟩
    · intro u hu
      exact Option.noConfusion hu
    · intro u hu
      exact Option.noConfusion hu
  · by_cases hb : u.isBanned = true
    · refine ⟨by simp [InitiatePayment, hf, hb], ?_, ?_⟩
      · intro v hv
        injection hv with hv
        subst hv
        simp [InitiatePayment, hf, hb]
      · intro v hv hvb
        injection hv with hv
        subst hv
        rw [hvb] at hb
        cases hb
    · have hb2 : u.isBanned = false := by simpa using hb
      by_cases ho : u.owned = true
      · refine ⟨by simp [InitiatePayment, hf, hb2, ho], ?_, ?_⟩
        · intro v hv
          injection hv with hv
          subst hv
          simp [InitiatePayment, hf, hb2, ho]
        · intro v hv hvb hvo
          injection hv with hv
          subst hv
          rw [hvo] at ho
          cases ho
      · have ho2 : u.owned = false := by simpa using ho
        refine ⟨by simp [InitiatePayment, hf, hb2, ho2, hg], ?_, ?_⟩
        · intro v hv
          injection hv with hv
          subst hv
          simp [InitiatePayment, hf, hb2, ho2, hg]
        · intro v hv _ _
          injection hv with hv
          subst hv
          have hres : (InitiatePayment db uid now rnd fuel sid).2 = Except.ok
              { id := sid, userID := uid, paymentCode := code, amount := 5000000,
                status := PaymentStatus.pending, qrImageURL := mkQRImageURL code,
                createdAt := now, expiresAt := now + fifteenMinutes, completedAt := none } := by
            simp [InitiatePayment, hf, hb2, ho2, hg]
          refine ⟨_, hres, ?_, rfl, rfl, rfl, rfl, rfl, ?_⟩
          · simp [InitiatePayment, hf, hb2, ho2, hg]
          · have hv2 : u ∈ db.users := List.mem_of_find?_eq_some hf
            have hvp : userIdPred uid u = true := List.find?_some hf
            rcases updateFirst_mem_updated (f := fun u2 =>
                { u2 with paymentCode := some code, updatedAt := now }) hv2 hvp with
              ⟨z, _, hpz, hzmem⟩
            refine ⟨{ z with paymentCode := some code, updatedAt := now }, ?_, ?_, rfl⟩
            · simpa [InitiatePayment, hf, hb2, ho2, hg] using hzmem
            · simpa [userIdPred] using hpz

/-- Claim C8 witness: a concrete successful initiation. -/
theorem C8_initiate_contract_witness :
    ∃ s, (InitiatePayment dbLinked 1 0 (fun _ => 3) 1 99).2 = Except.ok s ∧
      (InitiatePayment dbLinked 1 0 (fun _ => 3) 1 99).1.sessions = dbLinked.sessions ++ [s] ∧
      s.userID = 1 ∧ s.status = PaymentStatus.pending ∧ s.amount = 5000000 ∧
      s.createdAt = 0 ∧ s.expiresAt = 0 + fifteenMinutes ∧
      ∃ u2 ∈ (InitiatePayment dbLinked 1 0 (fun _ => 3) 1 99).1.users,
        u2.id = 1 ∧ u2.paymentCode = some s.paymentCode :=
  (C8_initiate_contract dbLinked 1 0 (fun _ => 3) 1 99 ⟨"DDDDDDDD".toList, by rfl⟩).2.2
    sampleUserLinked (by rfl) (by decide) (by decide)

end Atmt
